import Mathlib

/-!
Verification of the cost/completion accounting core of the xpert-app backend.

The definitions below are shallow embeddings of the business logic found in
  src/controllers/timesheet.controller.ts   (payment settlement, entry updates)
  src/controllers/client.controller.ts      (entry cost, completion report, profit analysis)
  src/controllers/project.controller.ts     (completed-value helper)
  prisma/schema.prisma                      (data model)
Monetary values, hours and rates are modelled as rationals; dates as integers
(day numbers); nullable columns and optional request fields as `Option`.
-/

/-- paymentStatus enum from prisma/schema.prisma. -/
inductive PaymentStatus
  | PENDING
  | APPROVED
  | PAID
  | CANCELLED
deriving DecidableEq, Repr

/-- EmployeeType enum from prisma/schema.prisma. -/
inductive EmployeeType
  | LOCAL
  | UNION
deriving DecidableEq, Repr

/-- UnionClassBaseRate model from prisma/schema.prisma (fields after migration
20250505151309_update_union_class_rates: regularRate, overtimeRate, benefitsRate;
there is no scalar field named rate). -/
structure UnionClassBaseRate where
  id : Nat
  unionClassId : Nat
  regularRate : ℚ
  overtimeRate : ℚ
  benefitsRate : ℚ
  effectiveDate : ℤ
  endDate : Option ℤ
deriving DecidableEq, Repr

/-- The numeric own-properties of a UnionClassBaseRate row as a JavaScript
object: property name paired with value.  This is the record the Prisma client
hands to the controllers, and it is what a dynamic property access reads from. -/
def UnionClassBaseRate.numericFields (b : UnionClassBaseRate) : List (String × ℚ) :=
  [("regularRate", b.regularRate),
   ("overtimeRate", b.overtimeRate),
   ("benefitsRate", b.benefitsRate)]

/-- A JavaScript property read on a row: looking up a property that the row
does not carry yields undefined (here: `none`). -/
def jsGetNumeric (fields : List (String × ℚ)) (fieldName : String) : Option ℚ :=
  fields.lookup fieldName

/-- The idiom `Number(x) || 0` used throughout the controllers: a present
numeric value passes through, while undefined/null (which coerce to NaN or 0)
falls back to 0. -/
def numberOrZero (x : Option ℚ) : ℚ :=
  x.getD 0

/-- Employee model from prisma/schema.prisma (fields used by the embedded logic). -/
structure Employee where
  id : String
  companyId : String
  type : EmployeeType
  rate : Option ℚ
  unionClassId : Option Nat
deriving DecidableEq, Repr

/-- TimeEntry model from prisma/schema.prisma (fields used by the embedded logic).
Hour fields are optional here so that the `Number(h) || 0` coercions of the
controllers are modelled faithfully on absent/null input. -/
structure TimeEntry where
  id : String
  employeeId : String
  date : ℤ
  regularHours : Option ℚ
  overtimeHours : Option ℚ
  doubleHours : Option ℚ
  projectId : Option String
  notes : Option String
  paymentStatus : PaymentStatus
  paymentId : Option String
deriving DecidableEq, Repr

/-- calculateEntryCost from src/controllers/client.controller.ts:
regular + overtime (times 1.5) + double (times 2) hours at the given rate,
with each hour field read through `Number(h) || 0`. -/
def calculateEntryCost (entry : TimeEntry) (hourlyRate : ℚ) : ℚ :=
  let regularHours := numberOrZero entry.regularHours
  let overtimeHours := numberOrZero entry.overtimeHours
  let doubleHours := numberOrZero entry.doubleHours
  let regularCost := regularHours * hourlyRate
  let overtimeCost := overtimeHours * hourlyRate * 1.5
  let doubleCost := doubleHours * hourlyRate * 2
  regularCost + overtimeCost + doubleCost

/-- Scale every hour field of a time entry by a constant factor. -/
def TimeEntry.scaleHours (c : ℚ) (entry : TimeEntry) : TimeEntry :=
  { entry with
    regularHours := entry.regularHours.map (fun h => c * h)
    overtimeHours := entry.overtimeHours.map (fun h => c * h)
    doubleHours := entry.doubleHours.map (fun h => c * h) }

/-- The hourly-rate resolution step shared by processPayment
(src/controllers/timesheet.controller.ts) and the labor-cost loops of
src/controllers/client.controller.ts and src/controllers/project.controller.ts:
a LOCAL employee contributes the scalar `Number(employee.rate) || 0`; a UNION
employee contributes `Number(baseRates[0].rate) || 0` read off the first
resolved base-rate row when one exists, and the initial 0 otherwise. -/
def resolvedHourlyRate (employee : Employee) (baseRateHead : Option UnionClassBaseRate) : ℚ :=
  match employee.type, baseRateHead with
  | EmployeeType.LOCAL, _ => numberOrZero employee.rate
  | EmployeeType.UNION, some b => numberOrZero (jsGetNumeric b.numericFields "rate")
  | EmployeeType.UNION, none => 0

/-- Payment model from prisma/schema.prisma (fields used by the embedded logic). -/
structure Payment where
  id : String
  employeeId : String
  paymentDate : ℤ
  regularAmount : ℚ
  overtimeAmount : ℚ
  doubleAmount : ℚ
  deductions : ℚ
  totalAmount : ℚ
  status : PaymentStatus
  reference : Option String
  notes : Option String
deriving DecidableEq, Repr

/-- Project model from prisma/schema.prisma (fields used by the embedded logic). -/
structure ProjectRec where
  id : String
  companyId : String
deriving DecidableEq, Repr

/-- The rows the settlement and time-entry endpoints read and write. -/
structure Db where
  employees : List Employee
  baseRates : List UnionClassBaseRate
  timeEntries : List TimeEntry
  payments : List Payment
  projects : List ProjectRec
deriving DecidableEq, Repr

/-- The Prisma where-clause on baseRates used by processPayment
(src/controllers/timesheet.controller.ts): effectiveDate at or before the
reference date, and endDate either null or at or after the reference date. -/
def baseRateInEffect (asOfDate : ℤ) (b : UnionClassBaseRate) : Bool :=
  decide (b.effectiveDate ≤ asOfDate) &&
    (match b.endDate with
     | none => true
     | some d => decide (asOfDate ≤ d))

/-- The orderBy effectiveDate descending comparison of that query. -/
def effectiveDateDesc (a b : UnionClassBaseRate) : Bool :=
  decide (b.effectiveDate ≤ a.effectiveDate)

/-- The rate-resolution query of processPayment: filter the base rates of the
union class to those in effect on the reference date, order by effectiveDate
descending, take the first. -/
def resolveRate (rates : List UnionClassBaseRate) (asOfDate : ℤ) : Option UnionClassBaseRate :=
  ((rates.filter (baseRateInEffect asOfDate)).mergeSort effectiveDateDesc).head?

inductive SettleError
  | employeeNotFound
  | noPayableEntries
deriving DecidableEq, Repr

instance {ε α : Type} [DecidableEq ε] [DecidableEq α] : DecidableEq (Except ε α) := fun x y =>
  match x, y with
  | Except.ok a, Except.ok b =>
    if h : a = b then Decidable.isTrue (by rw [h])
    else Decidable.isFalse (fun hh => h (Except.ok.inj hh))
  | Except.ok _, Except.error _ => Decidable.isFalse (fun hh => Except.noConfusion hh)
  | Except.error _, Except.ok _ => Decidable.isFalse (fun hh => Except.noConfusion hh)
  | Except.error a, Except.error b =>
    if h : a = b then Decidable.isTrue (by rw [h])
    else Decidable.isFalse (fun hh => h (Except.error.inj hh))

/-- What a successful processPayment call returns, together with the rows it
leaves behind. -/
structure SettleResult where
  db : Db
  payment : Payment
  timeEntriesProcessed : Nat
deriving DecidableEq, Repr

/-- processPayment from src/controllers/timesheet.controller.ts.  Looks up the
employee (with the resolved base-rate row of its union class as of the payment
date), then inside one transaction: reads the entries from timeEntryIds that
belong to the employee and are APPROVED, fails when none remain, computes the
amounts at the resolved hourly rate, creates one PAID Payment row, and finally
runs updateMany with a where-clause of only id-in-timeEntryIds, setting
paymentId and paymentStatus PAID on every row whose id is listed. -/
def processPayment (db : Db) (companyId employeeId : String)
    (timeEntryIds : List String) (paymentDate : ℤ) (deductions : Option ℚ)
    (reference notes : Option String) (newPaymentId : String) :
    Except SettleError SettleResult :=
  match db.employees.find? (fun e => e.id == employeeId && e.companyId == companyId) with
  | none => Except.error SettleError.employeeNotFound
  | some employee =>
    let unionBaseRateHead : Option UnionClassBaseRate :=
      match employee.unionClassId with
      | none => none
      | some uc => resolveRate (db.baseRates.filter (fun b => b.unionClassId == uc)) paymentDate
    let timeEntries := db.timeEntries.filter (fun e =>
      timeEntryIds.contains e.id && e.employeeId == employeeId
        && e.paymentStatus == PaymentStatus.APPROVED)
    if timeEntries.isEmpty then
      Except.error SettleError.noPayableEntries
    else
      let hourlyRate := resolvedHourlyRate employee unionBaseRateHead
      let regularHours := timeEntries.foldl (fun sum e => sum + numberOrZero e.regularHours) 0
      let overtimeHours := timeEntries.foldl (fun sum e => sum + numberOrZero e.overtimeHours) 0
      let doubleHours := timeEntries.foldl (fun sum e => sum + numberOrZero e.doubleHours) 0
      let regularAmount := regularHours * hourlyRate
      let overtimeAmount := overtimeHours * hourlyRate * 1.5
      let doubleAmount := doubleHours * hourlyRate * 2
      let deductionsAmount := numberOrZero deductions
      let totalAmount := regularAmount + overtimeAmount + doubleAmount - deductionsAmount
      let payment : Payment :=
        { id := newPaymentId, employeeId := employeeId, paymentDate := paymentDate,
          regularAmount := regularAmount, overtimeAmount := overtimeAmount,
          doubleAmount := doubleAmount, deductions := deductionsAmount,
          totalAmount := totalAmount, status := PaymentStatus.PAID,
          reference := reference, notes := notes }
      let updatedTimeEntries := db.timeEntries.map (fun e =>
        if timeEntryIds.contains e.id then
          { e with paymentId := some newPaymentId, paymentStatus := PaymentStatus.PAID }
        else e)
      Except.ok
        { db := { db with payments := db.payments ++ [payment], timeEntries := updatedTimeEntries },
          payment := payment, timeEntriesProcessed := timeEntries.length }

/-- The rows left after a processPayment call: the transaction rolls back on
the error path (the throw happens before any write), so the database is
unchanged there. -/
def dbAfterProcessPayment (db : Db) (companyId employeeId : String)
    (timeEntryIds : List String) (paymentDate : ℤ) (deductions : Option ℚ)
    (reference notes : Option String) (newPaymentId : String) : Db :=
  match processPayment db companyId employeeId timeEntryIds paymentDate deductions
      reference notes newPaymentId with
  | Except.ok r => r.db
  | Except.error _ => db

/-- A sample time entry used in concrete evaluations. -/
def sampleEntry (reg ot dbl : Option ℚ) : TimeEntry :=
  { id := "t1", employeeId := "e1", date := 0,
    regularHours := reg, overtimeHours := ot, doubleHours := dbl,
    projectId := none, notes := none,
    paymentStatus := PaymentStatus.PENDING, paymentId := none }

/-- A LOCAL employee of company co with scalar rate 20. -/
def alice : Employee :=
  { id := "alice", companyId := "co", type := EmployeeType.LOCAL,
    rate := some 20, unionClassId := none }

/-- A UNION employee of company co (no union class assigned). -/
def carol : Employee :=
  { id := "carol", companyId := "co", type := EmployeeType.UNION,
    rate := none, unionClassId := none }

/-- An APPROVED entry of alice. -/
def tApproved : TimeEntry :=
  { id := "t1", employeeId := "alice", date := 5,
    regularHours := some 8, overtimeHours := some 0, doubleHours := some 0,
    projectId := none, notes := none,
    paymentStatus := PaymentStatus.APPROVED, paymentId := none }

/-- A PENDING entry of a different employee, bob. -/
def tPending : TimeEntry :=
  { id := "t2", employeeId := "bob", date := 5,
    regularHours := some 3, overtimeHours := some 0, doubleHours := some 0,
    projectId := none, notes := none,
    paymentStatus := PaymentStatus.PENDING, paymentId := none }

/-- An APPROVED entry of carol. -/
def tUnion : TimeEntry :=
  { id := "t3", employeeId := "carol", date := 5,
    regularHours := some 8, overtimeHours := some 4, doubleHours := some 2,
    projectId := none, notes := none,
    paymentStatus := PaymentStatus.APPROVED, paymentId := none }

def dbC1 : Db :=
  { employees := [alice], baseRates := [], timeEntries := [tApproved, tPending], payments := [], projects := [] }

def dbC2 : Db :=
  { employees := [alice], baseRates := [], timeEntries := [tPending], payments := [], projects := [] }

def dbC3 : Db :=
  { employees := [carol], baseRates := [], timeEntries := [tUnion], payments := [], projects := [] }

/-- C1: evaluation of processPayment at a batch holding one APPROVED entry of
the paying employee and one PENDING entry of a different employee.  The call
succeeds, and the final updateMany (whose where-clause checks only membership
of the id list) marks the foreign PENDING entry PAID and attaches it to the
new payment as well, contradicting the claim that only the filtered entries
transition. -/
theorem processPayment_marks_unfiltered_entry_paid :
    tPending.employeeId ≠ "alice"
    ∧ tPending.paymentStatus = PaymentStatus.PENDING
    ∧ (processPayment dbC1 "co" "alice" ["t1", "t2"] 5 (some 0) none none "p1").isOk = true
    ∧ (dbAfterProcessPayment dbC1 "co" "alice" ["t1", "t2"] 5 (some 0) none none "p1").timeEntries
        = [{ tApproved with paymentStatus := PaymentStatus.PAID, paymentId := some "p1" },
           { tPending with paymentStatus := PaymentStatus.PAID, paymentId := some "p1" }] := by
  refine ⟨by decide, rfl, rfl, by decide⟩

/-- C2: when the employee exists but no entry of the batch belongs to that
employee with status APPROVED, processPayment fails with the
no-approved-entries error and, the throw happening before any write inside
the transaction, leaves every row unchanged. -/
theorem processPayment_no_payable_entries
    (db : Db) (companyId employeeId : String) (timeEntryIds : List String)
    (paymentDate : ℤ) (deductions : Option ℚ) (reference notes : Option String)
    (newPaymentId : String) (emp : Employee)
    (hemp : db.employees.find? (fun e => e.id == employeeId && e.companyId == companyId)
      = some emp)
    (hnone : db.timeEntries.filter (fun e =>
        timeEntryIds.contains e.id && e.employeeId == employeeId
          && e.paymentStatus == PaymentStatus.APPROVED) = []) :
    processPayment db companyId employeeId timeEntryIds paymentDate deductions
        reference notes newPaymentId
      = Except.error SettleError.noPayableEntries
    ∧ dbAfterProcessPayment db companyId employeeId timeEntryIds paymentDate deductions
        reference notes newPaymentId = db := by
  have h1 : processPayment db companyId employeeId timeEntryIds paymentDate deductions
      reference notes newPaymentId = Except.error SettleError.noPayableEntries := by
    simp only [processPayment, hemp, hnone, List.isEmpty_nil, if_true]
  exact ⟨h1, by simp only [dbAfterProcessPayment, h1]⟩

/-- Witness for the C2 theorem at a concrete database: the only listed entry
is PENDING, so the settlement fails and the database is untouched. -/
theorem processPayment_no_payable_entries_witness :
    processPayment dbC2 "co" "alice" ["t2"] 5 none none none "p1"
      = Except.error SettleError.noPayableEntries
    ∧ dbAfterProcessPayment dbC2 "co" "alice" ["t2"] 5 none none none "p1" = dbC2 :=
  processPayment_no_payable_entries dbC2 "co" "alice" ["t2"] 5 none none none "p1"
    alice (by decide) (by decide)

/-- For a UNION employee the hourly rate read by the controllers is 0,
whatever base-rate row (if any) was resolved, because the property the code
reads is absent from the row. -/
theorem resolvedHourlyRate_union (emp : Employee) (brh : Option UnionClassBaseRate)
    (hU : emp.type = EmployeeType.UNION) : resolvedHourlyRate emp brh = 0 := by
  cases brh with
  | none => simp [resolvedHourlyRate, hU]
  | some b =>
    simp [resolvedHourlyRate, hU, jsGetNumeric, UnionClassBaseRate.numericFields,
      numberOrZero, List.lookup]

/-- The cost of any entry at hourly rate 0 is 0. -/
theorem calculateEntryCost_zero_rate (entry : TimeEntry) : calculateEntryCost entry 0 = 0 := by
  simp [calculateEntryCost]

/-- C3: the UnionClassBaseRate row carries no property named rate, so the
dynamic read of that property yields undefined; hence the resolved hourly rate
of every UNION employee is 0, every time entry costed at that rate contributes
0, and a settlement for a UNION employee produces a payment whose three amount
fields are 0 and whose total is minus the deductions. -/
theorem unionClassBaseRate_rate_field_missing
    (b : UnionClassBaseRate) (emp : Employee) (brh : Option UnionClassBaseRate)
    (entry : TimeEntry) (db : Db) (companyId : String) (timeEntryIds : List String)
    (paymentDate : ℤ) (deductions : Option ℚ) (reference notes : Option String)
    (newPaymentId : String) (r : SettleResult)
    (hU : emp.type = EmployeeType.UNION)
    (hfind : db.employees.find? (fun e => e.id == emp.id && e.companyId == companyId)
      = some emp)
    (hok : processPayment db companyId emp.id timeEntryIds paymentDate deductions
        reference notes newPaymentId = Except.ok r) :
    jsGetNumeric b.numericFields "rate" = none
    ∧ resolvedHourlyRate emp brh = 0
    ∧ calculateEntryCost entry (resolvedHourlyRate emp brh) = 0
    ∧ r.payment.regularAmount = 0
    ∧ r.payment.overtimeAmount = 0
    ∧ r.payment.doubleAmount = 0
    ∧ r.payment.totalAmount = -(numberOrZero deductions) := by
  have hrate : ∀ brh2 : Option UnionClassBaseRate, resolvedHourlyRate emp brh2 = 0 :=
    fun brh2 => resolvedHourlyRate_union emp brh2 hU
  refine ⟨?_, hrate brh, ?_, ?_⟩
  · simp [jsGetNumeric, UnionClassBaseRate.numericFields, List.lookup]
  · rw [hrate brh, calculateEntryCost_zero_rate]
  · simp only [processPayment, hfind] at hok
    split at hok
    · exact absurd hok (by simp)
    · obtain rfl : _ = r := Except.ok.inj hok
      simp [hrate, mul_zero]

/-- A sample base-rate row with the three schema rate fields populated. -/
def sampleBaseRate : UnionClassBaseRate :=
  { id := 1, unionClassId := 1, regularRate := 50, overtimeRate := 75,
    benefitsRate := 10, effectiveDate := 0, endDate := none }

/-- The payment row created by settling tUnion for carol with deductions 7. -/
def paymentC3 : Payment :=
  { id := "p2", employeeId := "carol", paymentDate := 5,
    regularAmount := 0, overtimeAmount := 0, doubleAmount := 0,
    deductions := 7, totalAmount := -7, status := PaymentStatus.PAID,
    reference := none, notes := none }

/-- The settlement result of paying tUnion for carol with deductions 7. -/
def settleResultC3 : SettleResult :=
  { db := { dbC3 with
      payments := [paymentC3],
      timeEntries :=
        [{ tUnion with paymentStatus := PaymentStatus.PAID, paymentId := some "p2" }] },
    payment := paymentC3,
    timeEntriesProcessed := 1 }

/-- Witness for the C3 theorem: settling tUnion for carol at deductions 7
yields a payment of amounts 0, 0, 0 and total -7. -/
theorem unionClassBaseRate_rate_field_missing_witness :
    jsGetNumeric (UnionClassBaseRate.numericFields sampleBaseRate) "rate" = none
    ∧ resolvedHourlyRate carol none = 0
    ∧ calculateEntryCost tUnion (resolvedHourlyRate carol none) = 0
    ∧ settleResultC3.payment.regularAmount = 0
    ∧ settleResultC3.payment.overtimeAmount = 0
    ∧ settleResultC3.payment.doubleAmount = 0
    ∧ settleResultC3.payment.totalAmount = -(numberOrZero (some 7)) :=
  unionClassBaseRate_rate_field_missing sampleBaseRate carol none tUnion dbC3 "co"
    ["t3"] 5 (some 7) none none "p2" settleResultC3 (by decide) (by decide)
    (by
      simp [processPayment, dbC3, carol, tUnion, settleResultC3, paymentC3,
        resolvedHourlyRate, numberOrZero])

/-- C5: the entry cost is the stated formula with absent hours read as 0,
it is linear in the hour fields, and it takes the three stated values
on the three stated example entries at rate 20. -/
theorem calculateEntryCost_spec :
    (∀ (entry : TimeEntry) (rate : ℚ),
      calculateEntryCost entry rate =
        numberOrZero entry.regularHours * rate
          + numberOrZero entry.overtimeHours * rate * 1.5
          + numberOrZero entry.doubleHours * rate * 2)
    ∧ (∀ (entry : TimeEntry) (rate c : ℚ),
        calculateEntryCost (TimeEntry.scaleHours c entry) rate =
          c * calculateEntryCost entry rate)
    ∧ calculateEntryCost (sampleEntry (some 8) (some 0) (some 0)) 20 = 160
    ∧ calculateEntryCost (sampleEntry (some 0) (some 4) (some 0)) 20 = 120
    ∧ calculateEntryCost (sampleEntry (some 0) (some 0) (some 2)) 20 = 80
    ∧ calculateEntryCost (sampleEntry none none none) 20 = 0 := by
  refine ⟨fun entry rate => rfl, fun entry rate c => ?_, by norm_num [calculateEntryCost, sampleEntry, numberOrZero], by norm_num [calculateEntryCost, sampleEntry, numberOrZero], by norm_num [calculateEntryCost, sampleEntry, numberOrZero], by norm_num [calculateEntryCost, sampleEntry, numberOrZero]⟩
  cases hr : entry.regularHours <;> cases ho : entry.overtimeHours <;>
    cases hd : entry.doubleHours <;>
      simp [calculateEntryCost, TimeEntry.scaleHours, numberOrZero, hr, ho, hd] <;> ring

/-- A single base rate effective Jan 1 (day 1), open ended. -/
def rateJan1Open : UnionClassBaseRate :=
  { id := 1, unionClassId := 1, regularRate := 50, overtimeRate := 75,
    benefitsRate := 10, effectiveDate := 1, endDate := none }

/-- The same rate once a successor was inserted: closed at Mar 1 (day 60). -/
def rateJan1Closed : UnionClassBaseRate :=
  { rateJan1Open with endDate := some 60 }

/-- The successor rate effective Mar 1 (day 60), open ended. -/
def rateMar1 : UnionClassBaseRate :=
  { id := 2, unionClassId := 1, regularRate := 55, overtimeRate := 80,
    benefitsRate := 11, effectiveDate := 60, endDate := none }

/-- The descending comparison is transitive. -/
theorem effectiveDateDesc_trans (a b c : UnionClassBaseRate)
    (hab : effectiveDateDesc a b) (hbc : effectiveDateDesc b c) : effectiveDateDesc a c := by
  simp only [effectiveDateDesc, decide_eq_true_eq] at *
  omega

/-- The descending comparison is total. -/
theorem effectiveDateDesc_total (a b : UnionClassBaseRate) :
    effectiveDateDesc a b || effectiveDateDesc b a := by
  simp only [effectiveDateDesc, Bool.or_eq_true, decide_eq_true_eq]
  omega

/-- When some row of the history satisfies the where-clause, resolution
returns a row. -/
theorem resolveRate_isSome (rates : List UnionClassBaseRate) (asOfDate : ℤ)
    (r : UnionClassBaseRate) (hr : r ∈ rates)
    (hpred : baseRateInEffect asOfDate r = true) :
    ∃ r2, resolveRate rates asOfDate = some r2 := by
  have hmem : r ∈ (rates.filter (baseRateInEffect asOfDate)).mergeSort effectiveDateDesc := by
    rw [List.mem_mergeSort]
    exact List.mem_filter.mpr ⟨hr, hpred⟩
  cases hms : (rates.filter (baseRateInEffect asOfDate)).mergeSort effectiveDateDesc with
  | nil => rw [hms] at hmem; cases hmem
  | cons a t => exact ⟨a, by simp [resolveRate, hms]⟩

/-- C4: the resolved base-rate row satisfies the where-clause and has the
greatest effectiveDate among the rows of the history that satisfy it; with a
single rate open ended from Jan 1, resolving on or after Jan 1 returns it;
once a second rate effective Mar 1 closes the first at Mar 1, resolving at
Feb 15 (day 46) still returns the first rate and resolving on or after Mar 1
returns the second. -/
theorem resolveRate_spec :
    (∀ (rates : List UnionClassBaseRate) (asOfDate : ℤ) (r : UnionClassBaseRate),
      resolveRate rates asOfDate = some r →
        r ∈ rates ∧ baseRateInEffect asOfDate r = true
          ∧ ∀ r2 ∈ rates, baseRateInEffect asOfDate r2 = true →
              r2.effectiveDate ≤ r.effectiveDate)
    ∧ (∀ d : ℤ, 1 ≤ d → resolveRate [rateJan1Open] d = some rateJan1Open)
    ∧ resolveRate [rateJan1Closed, rateMar1] 46 = some rateJan1Closed
    ∧ (∀ d : ℤ, 60 ≤ d → resolveRate [rateJan1Closed, rateMar1] d = some rateMar1) := by
  have hgen : ∀ (rates : List UnionClassBaseRate) (asOfDate : ℤ) (r : UnionClassBaseRate),
      resolveRate rates asOfDate = some r →
        r ∈ rates ∧ baseRateInEffect asOfDate r = true
          ∧ ∀ r2 ∈ rates, baseRateInEffect asOfDate r2 = true →
              r2.effectiveDate ≤ r.effectiveDate := by
    intro rates asOfDate r h
    unfold resolveRate at h
    cases hms : (rates.filter (baseRateInEffect asOfDate)).mergeSort effectiveDateDesc with
    | nil => rw [hms] at h; cases h
    | cons a t =>
      rw [hms] at h
      cases h
      have hmem : r ∈ rates.filter (baseRateInEffect asOfDate) := by
        have hin2 : r ∈ (rates.filter (baseRateInEffect asOfDate)).mergeSort effectiveDateDesc := by
          rw [hms]
          exact List.mem_cons_self r t
        exact List.mem_mergeSort.mp hin2
      obtain ⟨hin, hpred⟩ := List.mem_filter.mp hmem
      refine ⟨hin, hpred, ?_⟩
      intro r2 hr2 hpred2
      have hmem2 : r2 ∈ (rates.filter (baseRateInEffect asOfDate)).mergeSort effectiveDateDesc := by
        rw [List.mem_mergeSort]
        exact List.mem_filter.mpr ⟨hr2, hpred2⟩
      rw [hms] at hmem2
      rcases List.mem_cons.mp hmem2 with h2 | h2
      · rw [h2]
      · have hsorted := List.sorted_mergeSort
          (fun x y z => effectiveDateDesc_trans x y z)
          effectiveDateDesc_total
          (rates.filter (baseRateInEffect asOfDate))
        rw [hms] at hsorted
        have := (List.pairwise_cons.mp hsorted).1 r2 h2
        simpa [effectiveDateDesc, decide_eq_true_eq] using this
  refine ⟨hgen, ?_, ?_, ?_⟩
  · intro d hd
    simp [resolveRate, baseRateInEffect, rateJan1Open, List.filter, hd]
  · simp [resolveRate, baseRateInEffect, rateJan1Closed, rateJan1Open, rateMar1, List.filter]
  · intro d hd
    have h1 : baseRateInEffect d rateMar1 = true := by
      simp [baseRateInEffect, rateMar1]
      omega
    obtain ⟨r, hr⟩ := resolveRate_isSome [rateJan1Closed, rateMar1] d rateMar1 (by simp) h1
    obtain ⟨hmemr, hpredr, hmaxr⟩ := hgen _ _ _ hr
    rcases List.mem_cons.mp hmemr with h2 | h2
    · exfalso
      have := hmaxr rateMar1 (by simp) h1
      rw [h2] at this
      simp [rateMar1, rateJan1Closed, rateJan1Open] at this
    · have : r = rateMar1 := by simpa using h2
      rw [this] at hr
      exact hr

/-- Witness for the C4 theorem at concrete dates: day 5 resolves the single
open rate, day 46 the closed first rate, day 100 the successor. -/
theorem resolveRate_spec_witness :
    resolveRate [rateJan1Open] 5 = some rateJan1Open
    ∧ resolveRate [rateJan1Closed, rateMar1] 46 = some rateJan1Closed
    ∧ resolveRate [rateJan1Closed, rateMar1] 100 = some rateMar1 :=
  ⟨resolveRate_spec.2.1 5 (by norm_num), resolveRate_spec.2.2.1,
    resolveRate_spec.2.2.2 100 (by norm_num)⟩

/-- WorkItem model from prisma/schema.prisma (fields used by the embedded logic). -/
structure WorkItem where
  id : String
  code : String
  name : String
  unit : String
  unitPrice : ℚ
deriving DecidableEq, Repr

/-- WorkItemQuantity model from prisma/schema.prisma, carried together with its
included workItem relation, as the completion queries fetch it. -/
structure WorkItemQuantity where
  id : String
  workItemId : String
  quantity : ℚ
  completed : ℚ
  workItem : WorkItem
deriving DecidableEq, Repr

/-- SubScope model from prisma/schema.prisma with its workItemQuantities. -/
structure SubScope where
  id : String
  code : String
  name : String
  workItemQuantities : List WorkItemQuantity
deriving DecidableEq, Repr

/-- Scope model from prisma/schema.prisma with its subScopes. -/
structure Scope where
  id : String
  code : String
  name : String
  subScopes : List SubScope
deriving DecidableEq, Repr

/-- calculateCompletedValue from src/controllers/project.controller.ts: for
each sub-scope of the project and each of its work-item quantities, add
unit price (read directly from the included work item) times completed. -/
def calculateCompletedValue (subScopes : List SubScope) : ℚ :=
  subScopes.foldl
    (fun completedValue subScope =>
      subScope.workItemQuantities.foldl
        (fun cv q => cv + q.workItem.unitPrice * q.completed) completedValue)
    0

/-- The ProjectWorkItem rows that the report-side calculateCompletedValue of
src/controllers/client.controller.ts expects to find on the project.  The
model of that name was dropped by migration 20250413223458_work_item and the
Project model of prisma/schema.prisma retains no relation of that name. -/
structure ProjectWorkItem where
  workItemId : String
  unitPrice : ℚ
deriving DecidableEq, Repr

/-- calculateCompletedValue from src/controllers/client.controller.ts: for
each work-item quantity it looks the unit price up by workItemId in the
project's projectWorkItems list, silently skipping rows without a match. -/
def calculateCompletedValueReport (subScopes : List SubScope)
    (projectWorkItems : List ProjectWorkItem) : ℚ :=
  subScopes.foldl
    (fun completedValue subScope =>
      subScope.workItemQuantities.foldl
        (fun cv q =>
          match projectWorkItems.find? (fun pwi => pwi.workItemId == q.workItemId) with
          | some pwi => cv + pwi.unitPrice * q.completed
          | none => cv)
        completedValue)
    0

/-- The relation field names of the Project model in prisma/schema.prisma. -/
def projectRelationFields : List String :=
  ["client", "company", "contractor", "scopes", "workItem", "expenses",
   "timeEntries", "sheetConnection"]

/-- The relation name the report-side completed-value query asks Prisma to
include on the project. -/
def reportCompletedValueInclude : String := "projectWorkItems"

/-- One row of the per-work-item completion output of getCompletionReport. -/
structure WorkItemCompletionRow where
  id : String
  quantity : ℚ
  completed : ℚ
  completion : ℚ
deriving DecidableEq, Repr

/-- One row of the per-sub-scope completion output of getCompletionReport. -/
structure SubScopeCompletionRow where
  id : String
  totalQuantity : ℚ
  completedQuantity : ℚ
  completion : ℚ
  workItems : List WorkItemCompletionRow
deriving DecidableEq, Repr

/-- One row of the per-scope completion output of getCompletionReport. -/
structure ScopeCompletionRow where
  id : String
  totalQuantity : ℚ
  completedQuantity : ℚ
  completion : ℚ
  subScopes : List SubScopeCompletionRow
deriving DecidableEq, Repr

/-- The sub-scope leg of the getCompletionReport roll-up
(src/controllers/client.controller.ts): per work item a quantity ratio, and
sub-scope totals accumulated over the work-item quantities. -/
def subScopeWithCompletion (subScope : SubScope) : SubScopeCompletionRow :=
  let workItems := subScope.workItemQuantities.map (fun wiq =>
    let total := wiq.quantity
    let completed := wiq.completed
    let completion : ℚ := if 0 < total then completed / total * 100 else 0
    ({ id := wiq.workItemId, quantity := total, completed := completed,
       completion := completion } : WorkItemCompletionRow))
  let subScopeTotalQuantity :=
    subScope.workItemQuantities.foldl (fun s wiq => s + wiq.quantity) 0
  let subScopeCompletedQuantity :=
    subScope.workItemQuantities.foldl (fun s wiq => s + wiq.completed) 0
  { id := subScope.id,
    totalQuantity := subScopeTotalQuantity,
    completedQuantity := subScopeCompletedQuantity,
    completion :=
      if 0 < subScopeTotalQuantity then
        subScopeCompletedQuantity / subScopeTotalQuantity * 100
      else 0,
    workItems := workItems }

/-- The scope leg of the roll-up: scope totals are sums of sub-scope totals,
and the scope percentage is recomputed from the summed quantities. -/
def scopeWithCompletion (scope : Scope) : ScopeCompletionRow :=
  let subScopes := scope.subScopes.map subScopeWithCompletion
  let scopeTotalQuantity := subScopes.foldl (fun s ss => s + ss.totalQuantity) 0
  let scopeCompletedQuantity := subScopes.foldl (fun s ss => s + ss.completedQuantity) 0
  { id := scope.id,
    totalQuantity := scopeTotalQuantity,
    completedQuantity := scopeCompletedQuantity,
    completion :=
      if 0 < scopeTotalQuantity then
        scopeCompletedQuantity / scopeTotalQuantity * 100
      else 0,
    subScopes := subScopes }

/-- The project leg of the roll-up: overall completion from the summed scope
totals. -/
def overallCompletion (scopes : List Scope) : ℚ :=
  let scopesWithCompletion := scopes.map scopeWithCompletion
  let totalQuantity := scopesWithCompletion.foldl (fun sum s => sum + s.totalQuantity) 0
  let completedQuantity := scopesWithCompletion.foldl (fun sum s => sum + s.completedQuantity) 0
  if 0 < totalQuantity then completedQuantity / totalQuantity * 100 else 0

/-- Folding additions of a mapped value equals the starting value plus the sum
of the mapped list. -/
theorem foldl_add_map {α : Type} (f : α → ℚ) (l : List α) (a : ℚ) :
    l.foldl (fun s x => s + f x) a = a + (l.map f).sum := by
  induction l generalizing a with
  | nil => simp
  | cons x t ih => simp [ih, add_assoc]

/-- All work-item quantities below a list of scopes. -/
def allQuantities (scopes : List Scope) : List WorkItemQuantity :=
  (scopes.flatMap Scope.subScopes).flatMap SubScope.workItemQuantities

/-- Summing a mapped value over a flattened list of lists equals summing the
per-list sums. -/
theorem sum_map_flatMap {α β : Type} (f : β → ℚ) (g : α → List β) (l : List α) :
    ((l.flatMap g).map f).sum = (l.map (fun a => ((g a).map f).sum)).sum := by
  induction l with
  | nil => simp
  | cons x t ih => simp [List.flatMap_cons, ih]

/-- The sub-scope totals of the roll-up are the sums of the quantities and
completed quantities of its work-item rows. -/
theorem subScopeWithCompletion_totalQuantity (s : SubScope) :
    (subScopeWithCompletion s).totalQuantity
      = (s.workItemQuantities.map WorkItemQuantity.quantity).sum := by
  simp [subScopeWithCompletion, foldl_add_map]

theorem subScopeWithCompletion_completedQuantity (s : SubScope) :
    (subScopeWithCompletion s).completedQuantity
      = (s.workItemQuantities.map WorkItemQuantity.completed).sum := by
  simp [subScopeWithCompletion, foldl_add_map]

/-- The scope totals of the roll-up are the sums over all work-item rows below
the scope. -/
theorem scopeWithCompletion_totalQuantity (sc : Scope) :
    (scopeWithCompletion sc).totalQuantity
      = ((sc.subScopes.flatMap SubScope.workItemQuantities).map
          WorkItemQuantity.quantity).sum := by
  simp [scopeWithCompletion, foldl_add_map, sum_map_flatMap,
    subScopeWithCompletion_totalQuantity, Function.comp_def]

theorem scopeWithCompletion_completedQuantity (sc : Scope) :
    (scopeWithCompletion sc).completedQuantity
      = ((sc.subScopes.flatMap SubScope.workItemQuantities).map
          WorkItemQuantity.completed).sum := by
  simp [scopeWithCompletion, foldl_add_map, sum_map_flatMap,
    subScopeWithCompletion_completedQuantity, Function.comp_def]

/-- The roll-up percentages at every level are ratios of summed quantities. -/
theorem subScopeWithCompletion_completion (s : SubScope) :
    (subScopeWithCompletion s).completion =
      if 0 < (s.workItemQuantities.map WorkItemQuantity.quantity).sum then
        (s.workItemQuantities.map WorkItemQuantity.completed).sum
          / (s.workItemQuantities.map WorkItemQuantity.quantity).sum * 100
      else 0 := by
  simp [subScopeWithCompletion, foldl_add_map]

theorem scopeWithCompletion_completion (sc : Scope) :
    (scopeWithCompletion sc).completion =
      if 0 < ((sc.subScopes.flatMap SubScope.workItemQuantities).map
          WorkItemQuantity.quantity).sum then
        ((sc.subScopes.flatMap SubScope.workItemQuantities).map
            WorkItemQuantity.completed).sum
          / ((sc.subScopes.flatMap SubScope.workItemQuantities).map
              WorkItemQuantity.quantity).sum * 100
      else 0 := by
  have h1 := scopeWithCompletion_totalQuantity sc
  have h2 := scopeWithCompletion_completedQuantity sc
  simp only [scopeWithCompletion] at h1 h2 ⊢
  rw [h1, h2]

theorem overallCompletion_eq (scopes : List Scope) :
    overallCompletion scopes =
      if 0 < ((allQuantities scopes).map WorkItemQuantity.quantity).sum then
        ((allQuantities scopes).map WorkItemQuantity.completed).sum
          / ((allQuantities scopes).map WorkItemQuantity.quantity).sum * 100
      else 0 := by
  simp [overallCompletion, foldl_add_map, allQuantities, sum_map_flatMap,
    scopeWithCompletion_totalQuantity, scopeWithCompletion_completedQuantity,
    Function.comp_def]

/-- The project-controller completed value is the sum over all work-item rows
of unit price times completed. -/
theorem calculateCompletedValue_eq_sum (subScopes : List SubScope) :
    calculateCompletedValue subScopes =
      ((subScopes.flatMap SubScope.workItemQuantities).map
        (fun q => q.workItem.unitPrice * q.completed)).sum := by
  simp [calculateCompletedValue, foldl_add_map, sum_map_flatMap]

/-- Work item priced 10 per unit. -/
def wiA : WorkItem :=
  { id := "wA", code := "A", name := "Item A", unit := "EA", unitPrice := 10 }

/-- Work item priced 4 per unit. -/
def wiB : WorkItem :=
  { id := "wB", code := "B", name := "Item B", unit := "EA", unitPrice := 4 }

/-- Quantity row: planned 100, completed 50, of the item priced 10. -/
def wiqA : WorkItemQuantity :=
  { id := "q1", workItemId := "wA", quantity := 100, completed := 50, workItem := wiA }

/-- Quantity row: planned 50, completed 50, of the item priced 4. -/
def wiqB : WorkItemQuantity :=
  { id := "q2", workItemId := "wB", quantity := 50, completed := 50, workItem := wiB }

/-- The sub-scope of the roll-up example. -/
def exampleSubScope : SubScope :=
  { id := "ss1", code := "1.1", name := "Sub", workItemQuantities := [wiqA, wiqB] }

/-- The scope of the roll-up example. -/
def exampleScope : Scope :=
  { id := "s1", code := "1", name := "Scope", subScopes := [exampleSubScope] }

/-- C6: the two completed-value implementations do not agree.  The relation
the report-side query includes, projectWorkItems, is not among the relation
fields of the Project model (the ProjectWorkItem table was dropped), so the
report-side query cannot succeed against the schema; and even reading the
dropped relation as empty, the report-side fold returns 0 on the example
project on which the project-controller helper returns 700. -/
theorem calculateCompletedValue_report_divergence :
    (reportCompletedValueInclude ∈ projectRelationFields) = False
    ∧ calculateCompletedValue [exampleSubScope] = 700
    ∧ calculateCompletedValueReport [exampleSubScope] [] = 0 := by
  refine ⟨eq_false (by decide), ?_, ?_⟩
  · norm_num [calculateCompletedValue, exampleSubScope, wiqA, wiqB, wiA, wiB]
  · norm_num [calculateCompletedValueReport, exampleSubScope, wiqA, wiqB]

/-- C7: every percentage of the completion report is the ratio of summed
completed quantities to summed planned quantities (0 when the planned sum is
not positive), never an average of child percentages; and on the example
project the overall quantity completion is 100/150 of 100, that is 200/3,
while the completed value is 700. -/
theorem completionReport_rollup_spec :
    (∀ s : SubScope,
      (subScopeWithCompletion s).completion =
        if 0 < (s.workItemQuantities.map WorkItemQuantity.quantity).sum then
          (s.workItemQuantities.map WorkItemQuantity.completed).sum
            / (s.workItemQuantities.map WorkItemQuantity.quantity).sum * 100
        else 0)
    ∧ (∀ sc : Scope,
      (scopeWithCompletion sc).completion =
        if 0 < ((sc.subScopes.flatMap SubScope.workItemQuantities).map
            WorkItemQuantity.quantity).sum then
          ((sc.subScopes.flatMap SubScope.workItemQuantities).map
              WorkItemQuantity.completed).sum
            / ((sc.subScopes.flatMap SubScope.workItemQuantities).map
                WorkItemQuantity.quantity).sum * 100
        else 0)
    ∧ (∀ scopes : List Scope,
      overallCompletion scopes =
        if 0 < ((allQuantities scopes).map WorkItemQuantity.quantity).sum then
          ((allQuantities scopes).map WorkItemQuantity.completed).sum
            / ((allQuantities scopes).map WorkItemQuantity.quantity).sum * 100
        else 0)
    ∧ overallCompletion [exampleScope] = 200 / 3
    ∧ calculateCompletedValue [exampleSubScope] = 700 := by
  refine ⟨subScopeWithCompletion_completion, scopeWithCompletion_completion,
    overallCompletion_eq, ?_, ?_⟩
  · rw [overallCompletion_eq]
    norm_num [allQuantities, exampleScope, exampleSubScope, wiqA, wiqB]
  · norm_num [calculateCompletedValue, exampleSubScope, wiqA, wiqB, wiA, wiB]

/-- One quantity row increased: same work item, same planned quantity, the
completed figure does not decrease and stays within the planned quantity. -/
def WIQIncrease (w w2 : WorkItemQuantity) : Prop :=
  w2.workItemId = w.workItemId ∧ w2.quantity = w.quantity ∧ w2.workItem = w.workItem
    ∧ w.completed ≤ w2.completed ∧ w2.completed ≤ w2.quantity

/-- Pointwise increase of the rows of a sub-scope. -/
def SubScopeIncrease (s s2 : SubScope) : Prop :=
  List.Forall₂ WIQIncrease s.workItemQuantities s2.workItemQuantities

/-- Pointwise increase of the sub-scopes of a scope. -/
def ScopeIncrease (sc sc2 : Scope) : Prop :=
  List.Forall₂ SubScopeIncrease sc.subScopes sc2.subScopes

/-- Forall₂ lifts through flatMap. -/
theorem forall₂_flatMap {α β γ : Type} (R : γ → γ → Prop) (f : α → List γ) (g : β → List γ)
    {l : List α} {l2 : List β}
    (h : List.Forall₂ (fun a b => List.Forall₂ R (f a) (g b)) l l2) :
    List.Forall₂ R (l.flatMap f) (l2.flatMap g) := by
  induction h with
  | nil =>
    simp only [List.flatMap_nil]
    exact List.Forall₂.nil
  | cons hab htl ih =>
    simp only [List.flatMap_cons]
    exact List.rel_append hab ih

/-- Sums of a mapped value respect a pointwise bound along Forall₂. -/
theorem sum_le_sum_forall₂ {α β : Type} {R : α → β → Prop} (f : α → ℚ) (g : β → ℚ)
    {l : List α} {l2 : List β} (h : List.Forall₂ R l l2)
    (hfg : ∀ a b, R a b → a ∈ l → f a ≤ g b) :
    (l.map f).sum ≤ (l2.map g).sum := by
  induction h with
  | nil => simp
  | @cons a b l1 l3 hab htl ih =>
    simp only [List.map_cons, List.sum_cons]
    exact add_le_add (hfg a b hab (List.mem_cons_self a l1))
      (ih (fun x y hxy hx => hfg x y hxy (List.mem_cons_of_mem a hx)))

/-- Sums of a mapped value are preserved when the relation preserves it. -/
theorem sum_eq_sum_forall₂ {α β : Type} {R : α → β → Prop} (f : α → ℚ) (g : β → ℚ)
    {l : List α} {l2 : List β} (h : List.Forall₂ R l l2)
    (hfg : ∀ a b, R a b → f a = g b) :
    (l.map f).sum = (l2.map g).sum := by
  induction h with
  | nil => simp
  | @cons a b l1 l3 hab htl ih =>
    simp only [List.map_cons, List.sum_cons]
    rw [hfg a b hab, ih]

/-- C10: increasing completed quantities pointwise (same planned quantities
and work items, completed within the planned amount, unit prices nonnegative)
never decreases the project completed value nor the overall quantity
completion. -/
theorem completion_rollup_monotone (scopes scopes2 : List Scope)
    (hinc : List.Forall₂ ScopeIncrease scopes scopes2)
    (hprice : ∀ q ∈ allQuantities scopes, 0 ≤ q.workItem.unitPrice) :
    calculateCompletedValue (scopes.flatMap Scope.subScopes)
        ≤ calculateCompletedValue (scopes2.flatMap Scope.subScopes)
    ∧ overallCompletion scopes ≤ overallCompletion scopes2 := by
  have hq : List.Forall₂ WIQIncrease (allQuantities scopes) (allQuantities scopes2) := by
    unfold allQuantities
    exact forall₂_flatMap WIQIncrease SubScope.workItemQuantities SubScope.workItemQuantities
      (forall₂_flatMap SubScopeIncrease Scope.subScopes Scope.subScopes hinc)
  constructor
  · rw [calculateCompletedValue_eq_sum, calculateCompletedValue_eq_sum]
    have : (scopes.flatMap Scope.subScopes).flatMap SubScope.workItemQuantities
        = allQuantities scopes := rfl
    rw [this]
    have h2 : (scopes2.flatMap Scope.subScopes).flatMap SubScope.workItemQuantities
        = allQuantities scopes2 := rfl
    rw [h2]
    refine sum_le_sum_forall₂ _ _ hq ?_
    intro a b hab ha
    rw [hab.2.2.1]
    exact mul_le_mul_of_nonneg_left hab.2.2.2.1 (hprice a ha)
  · rw [overallCompletion_eq, overallCompletion_eq]
    have hqeq : ((allQuantities scopes).map WorkItemQuantity.quantity).sum
        = ((allQuantities scopes2).map WorkItemQuantity.quantity).sum :=
      sum_eq_sum_forall₂ _ _ hq (fun a b hab => hab.2.1.symm)
    have hcle : ((allQuantities scopes).map WorkItemQuantity.completed).sum
        ≤ ((allQuantities scopes2).map WorkItemQuantity.completed).sum :=
      sum_le_sum_forall₂ _ _ hq (fun a b hab _ => hab.2.2.2.1)
    rw [← hqeq]
    by_cases hpos : 0 < ((allQuantities scopes).map WorkItemQuantity.quantity).sum
    · simp only [hpos, if_true]
      gcongr
    · simp [hpos]

/-- The increased variant of the example: the first row's completed moves from
50 to 60. -/
def wiqA2 : WorkItemQuantity :=
  { wiqA with completed := 60 }

def exampleSubScope2 : SubScope :=
  { exampleSubScope with workItemQuantities := [wiqA2, wiqB] }

def exampleScope2 : Scope :=
  { exampleScope with subScopes := [exampleSubScope2] }

/-- Witness for the C10 theorem: raising the first row's completed from 50 to
60 does not decrease either figure on the example project. -/
theorem completion_rollup_monotone_witness :
    calculateCompletedValue ([exampleScope].flatMap Scope.subScopes)
        ≤ calculateCompletedValue ([exampleScope2].flatMap Scope.subScopes)
    ∧ overallCompletion [exampleScope] ≤ overallCompletion [exampleScope2] :=
  completion_rollup_monotone [exampleScope] [exampleScope2]
    (by
      simp [ScopeIncrease, SubScopeIncrease, WIQIncrease, exampleScope, exampleScope2,
        exampleSubScope, exampleSubScope2, wiqA, wiqA2, wiqB]
      norm_num)
    (by
      intro q hq
      simp [allQuantities, exampleScope, exampleSubScope, wiqA, wiqB] at hq
      rcases hq with h | h <;> subst h <;> norm_num [wiA, wiB, wiqA, wiqB])

/-- A JavaScript number as relevant to the profit computation: a finite value
or one of the IEEE-754 non-finite results a division by zero produces. -/
inductive JsNum
  | num (q : ℚ)
  | posInf
  | negInf
  | nan
deriving DecidableEq, Repr

/-- JavaScript division of finite operands: a zero divisor yields NaN for a
zero dividend and a signed infinity otherwise; a nonzero divisor yields the
exact quotient. -/
def jsDiv (a b : ℚ) : JsNum :=
  if b = 0 then
    if a = 0 then JsNum.nan else if 0 < a then JsNum.posInf else JsNum.negInf
  else JsNum.num (a / b)

/-- JavaScript subtraction of a number from a finite value. -/
def jsSub (a : ℚ) (x : JsNum) : JsNum :=
  match x with
  | JsNum.num q => JsNum.num (a - q)
  | JsNum.posInf => JsNum.negInf
  | JsNum.negInf => JsNum.posInf
  | JsNum.nan => JsNum.nan

/-- The projected-profit line of getProfitAnalysis
(src/controllers/client.controller.ts): contractValue minus totalCost divided
by completionPercentage over 100, computed unconditionally, with no branch on
completionPercentage being 0. -/
def projectedProfit (contractValue totalCost completionPercentage : ℚ) : JsNum :=
  jsSub contractValue (jsDiv totalCost (completionPercentage / 100))

/-- The profit.projected field of the getProfitAnalysis response: the value is
always present in the response object. -/
def projectedProfitResponse (contractValue totalCost completionPercentage : ℚ) :
    Option JsNum :=
  some (projectedProfit contractValue totalCost completionPercentage)

/-- Modelled from the spec: the claimed divide-by-zero-guarded projected
profit, under which the figure is omitted when completionPct is 0. -/
def projectedProfitGuarded (contractValue totalCost completionPercentage : ℚ) :
    Option JsNum :=
  if completionPercentage = 0 then none
  else some (JsNum.num (contractValue - totalCost / (completionPercentage / 100)))

/-- C8 counterexample: at contractValue 1000, totalCost 400 and
completionPercentage 0, the code computes and returns minus infinity for the
projected profit instead of omitting the figure as the guarded reading
claims. -/
theorem projectedProfit_unguarded_at_zero :
    projectedProfitResponse 1000 400 0 = some JsNum.negInf
    ∧ projectedProfitGuarded 1000 400 0 = none
    ∧ projectedProfitResponse 1000 400 0 ≠ projectedProfitGuarded 1000 400 0 := by
  have h1 : projectedProfitResponse 1000 400 0 = some JsNum.negInf := by
    norm_num [projectedProfitResponse, projectedProfit, jsDiv, jsSub]
  have h2 : projectedProfitGuarded 1000 400 0 = none := by
    norm_num [projectedProfitGuarded]
  exact ⟨h1, h2, by rw [h1, h2]; exact Option.noConfusion⟩

/-- C8 amended: the division is not guarded.  The projected profit is always
computed and always present in the response; with a positive completion
percentage it is the claimed finite formula, and at completion percentage 0 it
is the IEEE result of the division by zero: minus infinity for positive total
cost, NaN for zero total cost, plus infinity for negative total cost. -/
theorem projectedProfit_spec (c t p : ℚ) (hp : p ≠ 0) :
    projectedProfitResponse c t p = some (JsNum.num (c - t / (p / 100)))
    ∧ (∀ t2 : ℚ, projectedProfitResponse c t2 0 = some (projectedProfit c t2 0))
    ∧ (0 < t → projectedProfit c t 0 = JsNum.negInf)
    ∧ (t = 0 → projectedProfit c t 0 = JsNum.nan)
    ∧ (t < 0 → projectedProfit c t 0 = JsNum.posInf) := by
  refine ⟨?_, fun t2 => rfl, ?_, ?_, ?_⟩
  · have h100 : p / 100 ≠ 0 := by
      intro h
      exact hp (by field_simp at h; exact h)
    simp [projectedProfitResponse, projectedProfit, jsDiv, jsSub, h100]
  · intro ht
    simp [projectedProfit, jsDiv, jsSub, ht, ne_of_gt ht]
  · intro ht
    simp [projectedProfit, jsDiv, jsSub, ht]
  · intro ht
    simp [projectedProfit, jsDiv, jsSub, ht, ne_of_lt ht, not_lt_of_lt ht]

/-- Witness for the C8 amended theorem at completion percentage 50. -/
theorem projectedProfit_spec_witness :
    projectedProfitResponse 1000 400 50 = some (JsNum.num (1000 - 400 / (50 / 100))) :=
  (projectedProfit_spec 1000 400 50 (by norm_num)).1

/-- The request body of PUT /api/timesheets/:id; a `none` field was not sent
and leaves the stored value untouched. -/
structure UpdateTimeEntryBody where
  date : Option ℤ
  regularHours : Option ℚ
  overtimeHours : Option ℚ
  doubleHours : Option ℚ
  projectId : Option String
  notes : Option String
  paymentStatus : Option PaymentStatus
deriving DecidableEq, Repr

inductive TimeEntryError
  | notFound
  | projectNotFound
  | entryLocked
deriving DecidableEq, Repr

/-- The where-clause of the findFirst shared by updateTimeEntry and
deleteTimeEntry: the entry's employee must belong to the caller's company. -/
def entryBelongsToCompany (db : Db) (companyId : String) (e : TimeEntry) : Bool :=
  match db.employees.find? (fun emp => emp.id == e.employeeId) with
  | some emp => emp.companyId == companyId
  | none => false

/-- findFirst of the time entry by id, scoped to the caller's company. -/
def findTimeEntryScoped (db : Db) (companyId id : String) : Option TimeEntry :=
  db.timeEntries.find? (fun e => e.id == id && entryBelongsToCompany db companyId e)

/-- updateTimeEntry from src/controllers/timesheet.controller.ts.  A PAID
entry is rejected unless the body itself carries paymentStatus PAID; when the
body names a different project, that project must exist in the company; then
every supplied field is written (an absent field keeps its stored value). -/
def updateTimeEntry (db : Db) (companyId id : String) (body : UpdateTimeEntryBody) :
    Except TimeEntryError (Db × TimeEntry) :=
  match findTimeEntryScoped db companyId id with
  | none => Except.error TimeEntryError.notFound
  | some existingEntry =>
    if existingEntry.paymentStatus == PaymentStatus.PAID
        && !(body.paymentStatus == some PaymentStatus.PAID) then
      Except.error TimeEntryError.entryLocked
    else
      let projectOk : Bool :=
        match body.projectId with
        | none => true
        | some p =>
          if some p == existingEntry.projectId then true
          else (db.projects.find? (fun pr => pr.id == p && pr.companyId == companyId)).isSome
      if !projectOk then Except.error TimeEntryError.projectNotFound
      else
        let updatedEntry : TimeEntry :=
          { existingEntry with
            date := body.date.getD existingEntry.date,
            regularHours :=
              match body.regularHours with
              | some h => some h
              | none => existingEntry.regularHours,
            overtimeHours :=
              match body.overtimeHours with
              | some h => some h
              | none => existingEntry.overtimeHours,
            doubleHours :=
              match body.doubleHours with
              | some h => some h
              | none => existingEntry.doubleHours,
            projectId :=
              match body.projectId with
              | some p => some p
              | none => existingEntry.projectId,
            notes :=
              match body.notes with
              | some n => some n
              | none => existingEntry.notes,
            paymentStatus := body.paymentStatus.getD existingEntry.paymentStatus }
        Except.ok
          ({ db with timeEntries :=
              db.timeEntries.map (fun e => if e.id == id then updatedEntry else e) },
            updatedEntry)

/-- deleteTimeEntry from src/controllers/timesheet.controller.ts: a PAID entry
is never deleted; otherwise the row is removed. -/
def deleteTimeEntry (db : Db) (companyId id : String) : Except TimeEntryError Db :=
  match findTimeEntryScoped db companyId id with
  | none => Except.error TimeEntryError.notFound
  | some existingEntry =>
    if existingEntry.paymentStatus == PaymentStatus.PAID then
      Except.error TimeEntryError.entryLocked
    else
      Except.ok { db with timeEntries := db.timeEntries.filter (fun e => !(e.id == id)) }

/-- The rows left after an update call (an error leaves them unchanged). -/
def dbAfterUpdateTimeEntry (db : Db) (companyId id : String)
    (body : UpdateTimeEntryBody) : Db :=
  match updateTimeEntry db companyId id body with
  | Except.ok r => r.1
  | Except.error _ => db

/-- The rows left after a delete call (an error leaves them unchanged). -/
def dbAfterDeleteTimeEntry (db : Db) (companyId id : String) : Db :=
  match deleteTimeEntry db companyId id with
  | Except.ok db2 => db2
  | Except.error _ => db

/-- A PAID entry of alice with 8 regular hours. -/
def tPaid : TimeEntry :=
  { id := "t9", employeeId := "alice", date := 5,
    regularHours := some 8, overtimeHours := some 0, doubleHours := some 0,
    projectId := none, notes := none,
    paymentStatus := PaymentStatus.PAID, paymentId := some "p0" }

def dbC9 : Db :=
  { employees := [alice], baseRates := [], timeEntries := [tPaid], payments := [],
    projects := [] }

/-- A body that changes regularHours to 9 while also carrying
paymentStatus PAID. -/
def bodyHoursAndPaid : UpdateTimeEntryBody :=
  { date := none, regularHours := some 9, overtimeHours := none, doubleHours := none,
    projectId := none, notes := none, paymentStatus := some PaymentStatus.PAID }

/-- A body that changes regularHours to 9 without carrying a payment status. -/
def bodyHoursOnly : UpdateTimeEntryBody :=
  { date := none, regularHours := some 9, overtimeHours := none, doubleHours := none,
    projectId := none, notes := none, paymentStatus := none }

/-- A body that carries nothing but paymentStatus PAID. -/
def bodyOnlyPaid : UpdateTimeEntryBody :=
  { date := none, regularHours := none, overtimeHours := none, doubleHours := none,
    projectId := none, notes := none, paymentStatus := some PaymentStatus.PAID }

/-- C9 counterexample: on a PAID entry, an update that carries
paymentStatus PAID together with regularHours 9 is accepted and overwrites the
stored hours, so such an update is not an idempotent no-op. -/
theorem updateTimeEntry_paid_carrying_paid_overwrites :
    tPaid.paymentStatus = PaymentStatus.PAID
    ∧ updateTimeEntry dbC9 "co" "t9" bodyHoursAndPaid
        = Except.ok
            ({ dbC9 with timeEntries := [{ tPaid with regularHours := some 9 }] },
              { tPaid with regularHours := some 9 })
    ∧ ({ tPaid with regularHours := some 9 } : TimeEntry).regularHours
        ≠ tPaid.regularHours := by
  refine ⟨rfl, by decide, by decide⟩

/-- Replacing the entry that carries a given id by itself is the identity on
a list whose ids are distinct. -/
theorem map_update_self {l : List TimeEntry} {tid : String} {ent : TimeEntry}
    (hmem : ent ∈ l) (hid : ent.id = tid)
    (hnodup : (l.map TimeEntry.id).Nodup) :
    l.map (fun e => if e.id == tid then ent else e) = l := by
  have hinj := List.inj_on_of_nodup_map hnodup
  have hcong : ∀ e ∈ l, (if e.id == tid then ent else e) = e := by
    intro e he
    by_cases h : (e.id == tid) = true
    · simp only [h, if_true]
      have heq : TimeEntry.id ent = TimeEntry.id e := by
        have h2 : e.id = tid := by simpa using h
        rw [hid, h2]
      exact hinj hmem he heq
    · simp [h]
  rw [List.map_congr_left hcong, List.map_id']

/-- C9 amended: on a PAID entry, an update whose body does not carry
paymentStatus PAID, and any delete, is rejected with the locked-entry error
and the rows are unchanged; an update whose body carries nothing but
paymentStatus PAID succeeds and returns the entry unchanged, leaving the rows
as they were. -/
theorem updateTimeEntry_paid_locked (db : Db) (companyId tid : String)
    (body : UpdateTimeEntryBody) (ent : TimeEntry)
    (hfind : findTimeEntryScoped db companyId tid = some ent)
    (hpaid : ent.paymentStatus = PaymentStatus.PAID)
    (hnodup : (db.timeEntries.map TimeEntry.id).Nodup) :
    (body.paymentStatus ≠ some PaymentStatus.PAID →
      updateTimeEntry db companyId tid body = Except.error TimeEntryError.entryLocked
      ∧ dbAfterUpdateTimeEntry db companyId tid body = db)
    ∧ (deleteTimeEntry db companyId tid = Except.error TimeEntryError.entryLocked
      ∧ dbAfterDeleteTimeEntry db companyId tid = db)
    ∧ updateTimeEntry db companyId tid bodyOnlyPaid = Except.ok (db, ent) := by
  have hmem : ent ∈ db.timeEntries := by
    have := List.mem_of_find?_eq_some hfind
    exact this
  have hid : ent.id = tid := by
    have hp := List.find?_some hfind
    have := (Bool.and_eq_true _ _).mp hp
    simpa using this.1
  refine ⟨?_, ?_, ?_⟩
  · intro hps
    have hbeq : (body.paymentStatus == some PaymentStatus.PAID) = false :=
      beq_eq_false_iff_ne.mpr hps
    have herr : updateTimeEntry db companyId tid body
        = Except.error TimeEntryError.entryLocked := by
      simp [updateTimeEntry, hfind, hpaid, hbeq]
    exact ⟨herr, by simp only [dbAfterUpdateTimeEntry, herr]⟩
  · have herr : deleteTimeEntry db companyId tid
        = Except.error TimeEntryError.entryLocked := by
      simp [deleteTimeEntry, hfind, hpaid]
    exact ⟨herr, by simp only [dbAfterDeleteTimeEntry, herr]⟩
  · have hmap := map_update_self hmem hid hnodup
    obtain ⟨eid, eemp, edate, ereg, eot, edbl, eproj, enotes, eps, epay⟩ := ent
    simp only [TimeEntry.mk.injEq] at hid
    simp only at hpaid
    subst hpaid
    simp only [beq_iff_eq] at hmap
    simp [updateTimeEntry, hfind, bodyOnlyPaid, hmap]

/-- Witness for the C9 amended theorem on the concrete PAID entry. -/
theorem updateTimeEntry_paid_locked_witness :
    (updateTimeEntry dbC9 "co" "t9" bodyHoursOnly = Except.error TimeEntryError.entryLocked
      ∧ dbAfterUpdateTimeEntry dbC9 "co" "t9" bodyHoursOnly = dbC9)
    ∧ (deleteTimeEntry dbC9 "co" "t9" = Except.error TimeEntryError.entryLocked
      ∧ dbAfterDeleteTimeEntry dbC9 "co" "t9" = dbC9)
    ∧ updateTimeEntry dbC9 "co" "t9" bodyOnlyPaid = Except.ok (dbC9, tPaid) :=
  have h := updateTimeEntry_paid_locked dbC9 "co" "t9" bodyHoursOnly tPaid
    (by decide) (by decide) (by decide)
  ⟨h.1 (by decide), h.2.1, h.2.2⟩
